import Mathlib

/-! gotelnet: the two relays of a line-oriented TCP client

A shallow embedding of `main.go`.  The program dials a connection and runs two
loops over it: `send` copies the lines of a local reader to the connection and
`read` copies the lines of the connection to a local writer.  Both loops share
one `context.Context` whose `Done` channel is the cancellation signal.

The Go library pieces the program calls are modelled by what they do on a
finite stream: `bufio.Scanner` with its default split function `ScanLines` and
its default buffer limit, `io.Writer.Write`, `net.Conn.Close`, `log.Fatal`.
-/

namespace Gotelnet

/-! ## Bytes, errors, streams -/

/-- A byte of a Go string or byte slice. -/
abbrev Byte := UInt8

/-- The byte of "\n". -/
def newline : Byte := 10

/-- The byte of "\r". -/
def carriageReturn : Byte := 13

/-- The constant `DataSeparator = "\n"`. -/
def DataSeparator : List Byte := [newline]

/-- Values of Go's `error` type that occur here; the nil error is `none` of
`Option Error`.  The first two are the package's own sentinels. -/
inductive Error where
  /-- The value of `errors.New("close connection intentionally")`. -/
  | ForceInterruptConnectionError
  /-- The value of `errors.New("connection closed by peer")`. -/
  | LosingConnectionWithRemoteError
  /-- The scanner's `bufio.ErrTooLong`. -/
  | ErrTooLong
  /-- The net package's "use of closed network connection". -/
  | ErrNetClosing
  /-- Any other error of the operating system or the network. -/
  | errno (code : Nat)
  deriving DecidableEq, Repr

open Error

/-- An `io.Reader` over a finite stream: the bytes it still delivers, and what
`Read` reports once they are used up (`none` is `io.EOF`, `some e` a read
error).  The end is reported by a `Read` of its own, after the last byte, as
`os.File` and `net.Conn` do. -/
structure Reader where
  data : List Byte
  fin : Option Error
  deriving DecidableEq, Repr

/-- An `io.Writer`: the bytes written so far, and the outcome of the coming
`Write` calls in order (`none`: the call succeeds; `some (n, e)`: the call
writes `n` bytes of its argument and fails with `e`).  Calls beyond the list
succeed. -/
structure Sink where
  written : List Byte
  faults : List (Option (Nat × Error))
  deriving DecidableEq, Repr

/-- The call `w.Write(p)`: the writer afterwards and the returned error. -/
def Sink.Write (w : Sink) (p : List Byte) : Sink × Option Error :=
  match w.faults with
  | [] => ({ w with written := w.written ++ p }, none)
  | none :: rest => ({ written := w.written ++ p, faults := rest }, none)
  | some (n, e) :: rest => ({ written := w.written ++ p.take n, faults := rest }, some e)

/-- The errors the coming writes of a sink can fail with. -/
def Sink.failures (w : Sink) : List Error :=
  w.faults.filterMap (fun f => f.map Prod.snd)

/-- A `net.Conn`: the stream the peer sends, the stream written to the peer,
and whether `Close` has been called on it. -/
structure Conn where
  inbound : Reader
  outbound : Sink
  closed : Bool
  deriving DecidableEq, Repr

/-- The call `conn.Write(p)`; a closed connection refuses the write. -/
def Conn.Write (c : Conn) (p : List Byte) : Conn × Option Error :=
  if c.closed then (c, some ErrNetClosing)
  else
    let (o, e) := c.outbound.Write p
    ({ c with outbound := o }, e)

/-- The call `conn.Close()`: the first call closes, a later one reports that
the connection is closed already. -/
def Conn.Close (c : Conn) : Conn × Option Error :=
  if c.closed then (c, some ErrNetClosing)
  else ({ c with closed := true }, none)

/-- The connection as the `io.Reader` handed to a scanner. -/
def Conn.reader (c : Conn) : Reader :=
  if c.closed then ⟨[], some ErrNetClosing⟩ else c.inbound

/-- The errors the coming writes of a connection can fail with. -/
def Conn.failures (c : Conn) : List Error :=
  if c.closed then [ErrNetClosing] else c.outbound.failures

/-! ## bufio.Scanner with ScanLines -/

/-- The constant `bufio.MaxScanTokenSize`. -/
def MaxScanTokenSize : Nat := 64 * 1024

/-- The call `bytes.IndexByte(data, c)`, with `none` for the result -1. -/
def IndexByte : List Byte → Byte → Option Nat
  | [], _ => none
  | b :: bs, c => if b = c then some 0 else (IndexByte bs c).map (· + 1)

/-- The helper `dropCR` of package bufio: drops one terminal "\r". -/
def dropCR (data : List Byte) : List Byte :=
  if data.getLast? = some carriageReturn then data.dropLast else data

/-- The split function `bufio.ScanLines`: how far to advance, and the token
(`none` for a nil token, a request for more data). -/
def ScanLines (data : List Byte) (atEOF : Bool) : Nat × Option (List Byte) :=
  if atEOF && data.isEmpty then (0, none)
  else
    match IndexByte data newline with
    | some i => (i + 1, some (dropCR (data.take i)))
    | none => if atEOF then (data.length, some (dropCR data)) else (0, none)

/-- A `bufio.Scanner`: the reader it drains (its unread bytes include what the
scanner holds in its buffer), the buffer limit, the last token and the error
`Err()` reports. -/
structure Scanner where
  r : Reader
  maxTokenSize : Nat
  token : List Byte
  err : Option Error
  deriving DecidableEq, Repr

/-- The call `bufio.NewScanner(r)`. -/
def NewScanner (r : Reader) : Scanner :=
  { r := r, maxTokenSize := MaxScanTokenSize, token := [], err := none }

/-- The call `scanner.Text()`. -/
def Scanner.Text (s : Scanner) : List Byte := s.token

/-- The call `scanner.Scan()`, for a scanner that has not yet returned false.
The buffer holds at most `maxTokenSize` unread bytes.  The split function sees
them; it is told the input has ended when the reader runs dry before the
buffer is full.  A full buffer without a token is `ErrTooLong`; otherwise a
nil token ends the scan with the reader's own end (`Err()` is nil on EOF). -/
def Scanner.Scan (s : Scanner) : Bool × Scanner :=
  let window := s.r.data.take s.maxTokenSize
  let atEOF := decide (s.r.data.length < s.maxTokenSize)
  match ScanLines window atEOF with
  | (advance, some token) =>
    (true, { s with r := { s.r with data := s.r.data.drop advance }, token := token })
  | (_, none) =>
    (false, { s with token := [], err := if atEOF then s.r.fin else some ErrTooLong })

/-! ## The session -/

/-- The type `TelnetAddr`. -/
structure TelnetAddr where
  network : String
  host : String
  port : String
  deriving DecidableEq, Repr

/-- The method `TelnetAddr.Network`. -/
def TelnetAddr.Network (ta : TelnetAddr) : String := ta.network

/-- The method `TelnetAddr.String`: "host:port". -/
def TelnetAddr.String (ta : TelnetAddr) : String := ta.host ++ ":" ++ ta.port

/-- A cancellable `context.Context`: whether its `Done` channel is closed. -/
structure Context where
  done : Bool
  deriving DecidableEq, Repr

/-- The context of `context.WithCancel(context.Background())`. -/
def Context.WithCancel : Context := { done := false }

/-- The cancel function of a context: closes `Done`. -/
def Context.cancel (_ : Context) : Context := { done := true }

/-- The type `Telnet`.  The field `ContextCancel` of the source is the cancel
function of `Context`; it is the method `Telnet.ContextCancel` below. -/
structure Telnet where
  Address : TelnetAddr
  ConnectTimeout : Nat
  Context : Context
  conn : Option Conn
  deriving DecidableEq, Repr

/-- The call `t.ContextCancel()`. -/
def Telnet.ContextCancel (t : Telnet) : Telnet :=
  { t with Context := t.Context.cancel }

/-- The function `newTelnetAddress`. -/
def newTelnetAddress (network host port : String) : TelnetAddr :=
  { network := network, host := host, port := port }

/-- The function `newTelnet`. -/
def newTelnet (address : TelnetAddr) (timeout : Nat) : Telnet :=
  { Address := address, ConnectTimeout := timeout, Context := Context.WithCancel, conn := none }

/-- The method `Telnet.open`; `dial` is what `DialContext` returns. -/
def Telnet.open (t : Telnet) (dial : Except Error Conn) : Telnet × Option Error :=
  match dial with
  | .error err => (t, some err)
  | .ok conn => ({ t with conn := some conn }, none)

/-- The method `Telnet.close`. -/
def Telnet.close (t : Telnet) : Telnet × Option Error :=
  match t.conn with
  | some c =>
    let (c', err) := c.Close
    ({ t with conn := some c' }, err)
  | none => (t, none)

/-! ## The relays -/

/-- How one pass through the body of a relay's `for` loop ends: the loop goes
round again, the function returns an error value, or the pass calls a method
of the nil connection (a run-time panic). -/
inductive Iter (σ : Type) where
  | next (s : σ)
  | ret (err : Option Error) (s : σ)
  | nilDeref
  deriving DecidableEq, Repr

/-- How a call of a relay ends. -/
inductive Outcome where
  | returned (err : Option Error)
  | nilDeref
  deriving DecidableEq, Repr

/-- What `send` works on: the session and its local scanner. -/
structure SendState where
  t : Telnet
  scanner : Scanner
  deriving DecidableEq, Repr

/-- What `read` works on: the session, its local scanner and the writer `w`. -/
structure ReadState where
  t : Telnet
  scanner : Scanner
  w : Sink
  deriving DecidableEq, Repr

/-- One pass through the loop body of `Telnet.send`. -/
def Telnet.sendIter (st : SendState) : Iter SendState :=
  if st.t.Context.done then
    .ret (some LosingConnectionWithRemoteError) st
  else
    match st.scanner.Scan with
    | (false, scanner) =>
      .ret (some ForceInterruptConnectionError) { t := st.t.ContextCancel, scanner := scanner }
    | (true, scanner) =>
      match st.t.conn with
      | none => .nilDeref
      | some conn =>
        match conn.Write (scanner.Text ++ DataSeparator) with
        | (conn', some err) => .ret (some err) { t := { st.t with conn := some conn' }, scanner := scanner }
        | (conn', none) => .next { t := { st.t with conn := some conn' }, scanner := scanner }

/-- One pass through the loop body of `Telnet.read`. -/
def Telnet.readIter (st : ReadState) : Iter ReadState :=
  if st.t.Context.done then
    .ret (some ForceInterruptConnectionError) st
  else
    match st.scanner.Scan with
    | (false, scanner) =>
      .ret (some LosingConnectionWithRemoteError) { st with t := st.t.ContextCancel, scanner := scanner }
    | (true, scanner) =>
      match st.w.Write (scanner.Text ++ DataSeparator) with
      | (w', some err) => .ret (some err) { st with scanner := scanner, w := w' }
      | (w', none) => .next { st with scanner := scanner, w := w' }

/-- The `for` loop of `Telnet.send`, run for at most `fuel` passes with no
other goroutine touching the session; `none` when the passes are used up. -/
def Telnet.sendLoop : Nat → SendState → Option (Outcome × SendState)
  | 0, _ => none
  | fuel + 1, st =>
    match Telnet.sendIter st with
    | .next st' => Telnet.sendLoop fuel st'
    | .ret err st' => some (.returned err, st')
    | .nilDeref => some (.nilDeref, st)

/-- The `for` loop of `Telnet.read`, run for at most `fuel` passes. -/
def Telnet.readLoop : Nat → ReadState → Option (Outcome × ReadState)
  | 0, _ => none
  | fuel + 1, st =>
    match Telnet.readIter st with
    | .next st' => Telnet.readLoop fuel st'
    | .ret err st' => some (.returned err, st')
    | .nilDeref => some (.nilDeref, st)

/-- The method `Telnet.send` on a finite reader, run on its own.  Every pass
that goes round again uses up a byte of the reader, so one pass per byte and
one more reach the return. -/
def Telnet.send (t : Telnet) (r : Reader) : Option (Outcome × SendState) :=
  Telnet.sendLoop (r.data.length + 1) { t := t, scanner := NewScanner r }

/-- The method `Telnet.read` on a finite inbound stream, run on its own.  A
scanner over the nil connection panics at its first `Scan`. -/
def Telnet.read (t : Telnet) (w : Sink) : Option (Outcome × ReadState) :=
  match t.conn with
  | none =>
    if t.Context.done then
      some (.returned (some ForceInterruptConnectionError),
        { t := t, scanner := NewScanner ⟨[], none⟩, w := w })
    else some (.nilDeref, { t := t, scanner := NewScanner ⟨[], none⟩, w := w })
  | some conn =>
    Telnet.readLoop (conn.reader.data.length + 1)
      { t := t, scanner := NewScanner conn.reader, w := w }

/-! ## The two relays side by side -/

/-- A goroutine running a relay. -/
inductive Relay where
  | running (scanner : Scanner)
  | stopped (err : Option Error)
  | crashed
  deriving DecidableEq, Repr

/-- The process while both relays run: the shared session, the goroutine of
`send`, the goroutine of `read`, and standard output. -/
structure Session where
  t : Telnet
  up : Relay
  down : Relay
  stdout : Sink
  deriving DecidableEq, Repr

/-- What can happen next: a pass of `send`, a pass of `read`, or a call of
`ContextCancel`. -/
inductive Action where
  | sendIter
  | readIter
  | cancel
  deriving DecidableEq, Repr

/-- One action on the process. -/
def Session.step (s : Session) : Action → Session
  | .sendIter =>
    match s.up with
    | .running scanner =>
      match Telnet.sendIter { t := s.t, scanner := scanner } with
      | .next st => { s with t := st.t, up := .running st.scanner }
      | .ret err st => { s with t := st.t, up := .stopped err }
      | .nilDeref => { s with up := .crashed }
    | _ => s
  | .readIter =>
    match s.down with
    | .running scanner =>
      match Telnet.readIter { t := s.t, scanner := scanner, w := s.stdout } with
      | .next st => { s with t := st.t, down := .running st.scanner, stdout := st.w }
      | .ret err st => { s with t := st.t, down := .stopped err, stdout := st.w }
      | .nilDeref => { s with down := .crashed }
    | _ => s
  | .cancel => { s with t := s.t.ContextCancel }

/-- A sequence of actions, in order. -/
def Session.run (s : Session) : List Action → Session
  | [] => s
  | a :: as => (s.step a).run as

/-- The process when `main` has started both goroutines on an open
connection. -/
def Session.start (t : Telnet) (conn : Conn) (stdin : Reader) (stdout : Sink) : Session :=
  { t := { t with conn := some conn }, up := .running (NewScanner stdin),
    down := .running (NewScanner conn.reader), stdout := stdout }

/-! ## main -/

/-- The two goroutines of `main`. -/
inductive RelayId where
  | uplink
  | downlink
  deriving DecidableEq, Repr

/-- The other goroutine. -/
def RelayId.other : RelayId → RelayId
  | .uplink => .downlink
  | .downlink => .uplink

/-- What the process does that the coordinator's contract speaks of. -/
inductive Event where
  /-- The method `open` returned nil. -/
  | opened
  /-- A relay returned this error value. -/
  | relayReturned (who : RelayId) (err : Option Error)
  /-- The deferred `wg.Done()` of a goroutine ran. -/
  | wgDone (who : RelayId)
  /-- The call `wg.Wait()` returned. -/
  | waitReturned
  /-- The deferred `telnet.close()` ran. -/
  | closed
  /-- The call `log.Fatal(err)`: it logs and calls `os.Exit(1)`; the process
  ends there and no deferred call runs. -/
  | fatalExit (err : Error)
  deriving DecidableEq, Repr

/-- The body of a goroutine of `main`, given what its relay returns: the
events, and whether the process is still alive afterwards. -/
def goroutine (who : RelayId) (err : Option Error) : List Event × Bool :=
  match err with
  | some e => ([.relayReturned who err, .fatalExit e], false)
  | none => ([.relayReturned who none, .wgDone who], true)

/-- The function `main`, given what the dial returns, which relay returns
first, and what the two relays return. -/
def main (dial : Except Error Conn) (first : RelayId) (errFirst errSecond : Option Error) :
    List Event :=
  match dial with
  | .error err => [.fatalExit err]
  | .ok _ =>
    match goroutine first errFirst with
    | (ev1, false) => .opened :: ev1
    | (ev1, true) =>
      match goroutine first.other errSecond with
      | (ev2, false) => .opened :: (ev1 ++ ev2)
      | (ev2, true) => .opened :: (ev1 ++ ev2 ++ [.waitReturned, .closed])

/-! ## Streams of lines, runs, and example sessions -/

/-- The cancellation signal before and after each action of a run. -/
def Session.signals (s : Session) : List Action → List Bool
  | [] => [s.t.Context.done]
  | a :: as => s.t.Context.done :: (s.step a).signals as

/-- The bytes of a stream of lines: every line of `lines` followed by "\n",
then the bytes `tail` that no "\n" follows before the stream ends. -/
def stream : List (List Byte) → List Byte → List Byte
  | [], tail => tail
  | l :: ls, tail => l ++ newline :: stream ls tail

/-- The unterminated end of a stream as a list of lines: no line when it is
empty. -/
def tailLines (tail : List Byte) : List (List Byte) :=
  if tail.isEmpty then [] else [tail]

/-- Every line followed by `DataSeparator`, in order. -/
def wire : List (List Byte) → List Byte
  | [] => []
  | l :: ls => l ++ DataSeparator ++ wire ls

/-- Every line without one terminal "\r", followed by `DataSeparator`, in
order. -/
def frames : List (List Byte) → List Byte
  | [] => []
  | l :: ls => dropCR l ++ DataSeparator ++ frames ls

/-- How a line on the wire ends: "\n" or "\r\n". -/
inductive Terminator where
  | lf
  | crlf
  deriving DecidableEq, Repr

/-- The bytes of a terminator. -/
def Terminator.bytes : Terminator → List Byte
  | .lf => [newline]
  | .crlf => [carriageReturn, newline]

/-- The bytes before the "\n" of a line with the given text and terminator. -/
def rawLine (x : List Byte × Terminator) : List Byte :=
  match x.2 with
  | .lf => x.1
  | .crlf => x.1 ++ [carriageReturn]

/-- The bytes of a stream of texts, each with its own terminator, then the
unterminated `tail`. -/
def received : List (List Byte × Terminator) → List Byte → List Byte
  | [], tail => tail
  | x :: xs, tail => x.1 ++ x.2.bytes ++ received xs tail

/-- A line of `n` bytes "a". -/
def longLine (n : Nat) : List Byte := List.replicate n 97

/-- A connection on which the peer sends `inbound` and then closes. -/
def exampleConn (inbound : List Byte) : Conn :=
  { inbound := ⟨inbound, none⟩, outbound := ⟨[], []⟩, closed := false }

/-- A session opened on `exampleConn inbound`. -/
def exampleTelnet (inbound : List Byte) : Telnet :=
  ((newTelnet (newTelnetAddress "tcp" "localhost" "23") 10).open (.ok (exampleConn inbound))).1

/-- A connection whose next write fails with the error of a broken pipe. -/
def brokenConn : Conn :=
  { inbound := ⟨[], none⟩, outbound := ⟨[], [some (0, errno 32)]⟩, closed := false }

/-- A session opened on `brokenConn`. -/
def brokenTelnet : Telnet :=
  ((newTelnet (newTelnetAddress "tcp" "localhost" "23") 10).open (.ok brokenConn)).1

/-- The process after `send` has relayed the first of two lines of standard
input and the signal has then been set from outside. -/
def cancelledMidway : Session :=
  (Session.start (newTelnet (newTelnetAddress "tcp" "localhost" "23") 10)
    (exampleConn [104, 105, 10]) ⟨[97, 10, 98, 10], none⟩ ⟨[], []⟩).run [.sendIter, .cancel]

/-- A scanner that has read the line "a" and has the line "b" left. -/
def scannerAfterA : Scanner :=
  { r := ⟨[98, 10], none⟩, maxTokenSize := MaxScanTokenSize, token := [97], err := none }

/-- The state of `read` before the lines "a" and "b", with a local writer whose
next write fails after one byte for lack of space. -/
def readFullDisk : ReadState :=
  { t := exampleTelnet [97, 10, 98, 10], scanner := NewScanner ⟨[97, 10, 98, 10], none⟩, w := ⟨[], [some (1, errno 28)]⟩ }

/-- A connection on which the peer sends `inbound` and is then reset: the next
read fails with the error of a connection reset. -/
def resetConn (inbound : List Byte) : Conn :=
  { inbound := ⟨inbound, some (errno 104)⟩, outbound := ⟨[], []⟩, closed := false }

/-- A session opened on `resetConn inbound`. -/
def resetTelnet (inbound : List Byte) : Telnet :=
  ((newTelnet (newTelnetAddress "tcp" "localhost" "23") 10).open (.ok (resetConn inbound))).1

/-! ## Supporting facts -/

/-- A byte that does not occur has no index. -/
theorem IndexByte_eq_none {l : List Byte} {c : Byte} (h : c ∉ l) : IndexByte l c = none := by
  induction l with
  | nil => rfl
  | cons b bs ih =>
    have hb : b ≠ c := fun e => h (e ▸ List.mem_cons_self _ _)
    have hbs : c ∉ bs := fun m => h (List.mem_cons_of_mem _ m)
    simp [IndexByte, hb, ih hbs]

/-- The index of the first occurrence of a byte. -/
theorem IndexByte_append_cons {l : List Byte} {c : Byte} (rest : List Byte) (h : c ∉ l) :
    IndexByte (l ++ c :: rest) c = some l.length := by
  induction l with
  | nil => simp [IndexByte]
  | cons b bs ih =>
    have hb : b ≠ c := fun e => h (e ▸ List.mem_cons_self _ _)
    have hbs : c ∉ bs := fun m => h (List.mem_cons_of_mem _ m)
    simp [IndexByte, hb, ih hbs]

/-- A scan over a line that fits the buffer and is followed by "\n" yields the line without its terminal "\r" and leaves the bytes after the "\n". -/
theorem Scan_line (s : Scanner) (line rest : List Byte) (hdata : s.r.data = line ++ newline :: rest)
    (hnl : newline ∉ line) (hlen : line.length < s.maxTokenSize) :
    s.Scan = (true, { s with r := { s.r with data := rest }, token := dropCR line }) := by
  have hw : (line ++ newline :: rest).take s.maxTokenSize
      = line ++ newline :: rest.take (s.maxTokenSize - line.length - 1) := by
    rw [List.take_append_eq_append_take, List.take_of_length_le (Nat.le_of_lt hlen)]
    obtain ⟨k, hk⟩ : ∃ k, s.maxTokenSize - line.length = k + 1 := ⟨s.maxTokenSize - line.length - 1, by omega⟩
    rw [hk, List.take_succ_cons]
    simp
  simp only [Scanner.Scan, hdata, hw, ScanLines, IndexByte_append_cons _ hnl]
  simp

/-- A scan over unterminated bytes that fit the buffer yields them as the last token. -/
theorem Scan_tail (s : Scanner) (hne : s.r.data ≠ []) (hnl : newline ∉ s.r.data)
    (hlen : s.r.data.length < s.maxTokenSize) :
    s.Scan = (true, { s with r := { s.r with data := [] }, token := dropCR s.r.data }) := by
  have hw : s.r.data.take s.maxTokenSize = s.r.data := List.take_of_length_le (Nat.le_of_lt hlen)
  simp [Scanner.Scan, hw, ScanLines, IndexByte_eq_none hnl, hlen, hne]

/-- A scan over a reader with no bytes left returns false. -/
theorem Scan_dry (s : Scanner) (hdata : s.r.data = []) :
    s.Scan =
      (false, { s with token := [], err := if 0 < s.maxTokenSize then s.r.fin else some ErrTooLong }) := by
  by_cases h : 0 < s.maxTokenSize
  · simp [Scanner.Scan, hdata, ScanLines, h]
  · simp [Scanner.Scan, hdata, ScanLines, h, IndexByte]

/-- A scan over a full buffer without "\n" returns false with `ErrTooLong`. -/
theorem Scan_tooLong (s : Scanner) (hnl : newline ∉ s.r.data.take s.maxTokenSize)
    (hlen : s.maxTokenSize ≤ s.r.data.length) :
    s.Scan = (false, { s with token := [], err := some ErrTooLong }) := by
  have h : ¬ s.r.data.length < s.maxTokenSize := by omega
  simp [Scanner.Scan, ScanLines, IndexByte_eq_none hnl, h]

/-- A pass of `send` with the signal set returns at once and changes nothing. -/
theorem sendIter_of_done (st : SendState) (h : st.t.Context.done = true) :
    Telnet.sendIter st = .ret (some LosingConnectionWithRemoteError) st := by
  simp [Telnet.sendIter, h]

/-- A pass of `read` with the signal set returns at once and changes nothing. -/
theorem readIter_of_done (rt : ReadState) (h : rt.t.Context.done = true) :
    Telnet.readIter rt = .ret (some ForceInterruptConnectionError) rt := by
  simp [Telnet.readIter, h]

/-- No action unsets the signal. -/
theorem step_of_done (s : Session) (a : Action) (h : s.t.Context.done = true) :
    (s.step a).t.Context.done = true := by
  cases a with
  | sendIter =>
    cases hup : s.up with
    | running scanner =>
      simp [Session.step, hup, sendIter_of_done { t := s.t, scanner := scanner } h, h]
    | stopped err => simp [Session.step, hup, h]
    | crashed => simp [Session.step, hup, h]
  | readIter =>
    cases hdown : s.down with
    | running scanner =>
      simp [Session.step, hdown, readIter_of_done { t := s.t, scanner := scanner, w := s.stdout } h, h]
    | stopped err => simp [Session.step, hdown, h]
    | crashed => simp [Session.step, hdown, h]
  | cancel => rfl

/-- No sequence of actions unsets the signal. -/
theorem run_of_done (actions : List Action) (s : Session) (h : s.t.Context.done = true) :
    (s.run actions).t.Context.done = true := by
  induction actions generalizing s with
  | nil => exact h
  | cons a as ih => exact ih (s.step a) (step_of_done s a h)

/-- A run over two sequences of actions is the run over the first followed by the run over the second. -/
theorem run_append (as bs : List Action) (s : Session) :
    s.run (as ++ bs) = (s.run as).run bs := by
  induction as generalizing s with
  | nil => rfl
  | cons a as ih => exact ih (s.step a)

/-- A failed write fails with one of the errors of the sink. -/
theorem sink_write_fails {w w' : Sink} {p : List Byte} {e : Error}
    (h : w.Write p = (w', some e)) : e ∈ w.failures := by
  unfold Sink.Write at h
  unfold Sink.failures
  split at h
  · simp at h
  · simp at h
  · next n e0 rest hf =>
    simp at h
    simp [hf, h.2]

/-- A write that succeeds adds no error to those of the sink. -/
theorem sink_write_succeeds {w w' : Sink} {p : List Byte}
    (h : w.Write p = (w', none)) : ∀ e, e ∈ w'.failures → e ∈ w.failures := by
  unfold Sink.Write at h
  unfold Sink.failures
  split at h
  · next hf =>
    simp at h
    simp [← h, hf]
  · next rest hf =>
    simp at h
    simp [← h, hf]
  · simp at h

/-- A failed write fails with one of the errors of the connection. -/
theorem conn_write_fails {c c' : Conn} {p : List Byte} {e : Error}
    (h : c.Write p = (c', some e)) : e ∈ c.failures := by
  unfold Conn.Write at h
  unfold Conn.failures
  by_cases hc : c.closed = true
  · simp [hc] at h
    simp [hc, h.2]
  · cases hW : c.outbound.Write p with
    | mk o e0 =>
      simp [hc, hW] at h
      simp only [hc]
      exact sink_write_fails (h.2 ▸ hW)

/-- A write that succeeds adds no error to those of the connection. -/
theorem conn_write_succeeds {c c' : Conn} {p : List Byte}
    (h : c.Write p = (c', none)) : ∀ e, e ∈ c'.failures → e ∈ c.failures := by
  unfold Conn.Write at h
  by_cases hc : c.closed = true
  · simp [hc] at h
  · cases hW : c.outbound.Write p with
    | mk o e0 =>
      simp [hc, hW] at h
      intro e he
      unfold Conn.failures at he ⊢
      rw [← h.1] at he
      simp only [hc] at he ⊢
      exact sink_write_succeeds (h.2 ▸ hW) e (by simpa using he)

/-- The four ways a pass of `send` on an open session ends. -/
theorem sendIter_cases (st : SendState) (c : Conn) (hc : st.t.conn = some c) :
    Telnet.sendIter st = .ret (some LosingConnectionWithRemoteError) st
    ∨ (∃ sc, st.scanner.Scan = (false, sc) ∧ Telnet.sendIter st
        = .ret (some ForceInterruptConnectionError) { t := st.t.ContextCancel, scanner := sc })
    ∨ (∃ sc c' e, st.scanner.Scan = (true, sc)
        ∧ c.Write (sc.Text ++ DataSeparator) = (c', some e)
        ∧ Telnet.sendIter st = .ret (some e) { t := { st.t with conn := some c' }, scanner := sc })
    ∨ (∃ sc c', st.scanner.Scan = (true, sc)
        ∧ c.Write (sc.Text ++ DataSeparator) = (c', none)
        ∧ Telnet.sendIter st = .next { t := { st.t with conn := some c' }, scanner := sc }) := by
  by_cases hd : st.t.Context.done = true
  · exact Or.inl (sendIter_of_done st hd)
  · cases hscan : st.scanner.Scan with
    | mk ok sc =>
      cases ok with
      | false =>
        exact Or.inr (Or.inl ⟨sc, rfl, by simp [Telnet.sendIter, hd, hscan]⟩)
      | true =>
        cases hW : c.Write (sc.Text ++ DataSeparator) with
        | mk c' e =>
          cases e with
          | none =>
            exact Or.inr (Or.inr (Or.inr ⟨sc, c', rfl, hW, by simp [Telnet.sendIter, hd, hscan, hc, hW]⟩))
          | some e =>
            exact Or.inr (Or.inr (Or.inl ⟨sc, c', e, rfl, hW, by simp [Telnet.sendIter, hd, hscan, hc, hW]⟩))

/-- The four ways a pass of `read` ends. -/
theorem readIter_cases (rt : ReadState) :
    Telnet.readIter rt = .ret (some ForceInterruptConnectionError) rt
    ∨ (∃ sc, rt.scanner.Scan = (false, sc) ∧ Telnet.readIter rt
        = .ret (some LosingConnectionWithRemoteError) { rt with t := rt.t.ContextCancel, scanner := sc })
    ∨ (∃ sc w' e, rt.scanner.Scan = (true, sc)
        ∧ rt.w.Write (sc.Text ++ DataSeparator) = (w', some e)
        ∧ Telnet.readIter rt = .ret (some e) { rt with scanner := sc, w := w' })
    ∨ (∃ sc w', rt.scanner.Scan = (true, sc)
        ∧ rt.w.Write (sc.Text ++ DataSeparator) = (w', none)
        ∧ Telnet.readIter rt = .next { rt with scanner := sc, w := w' }) := by
  by_cases hd : rt.t.Context.done = true
  · exact Or.inl (readIter_of_done rt hd)
  · cases hscan : rt.scanner.Scan with
    | mk ok sc =>
      cases ok with
      | false =>
        exact Or.inr (Or.inl ⟨sc, rfl, by simp [Telnet.readIter, hd, hscan]⟩)
      | true =>
        cases hW : rt.w.Write (sc.Text ++ DataSeparator) with
        | mk w' e =>
          cases e with
          | none =>
            exact Or.inr (Or.inr (Or.inr ⟨sc, w', rfl, hW, by simp [Telnet.readIter, hd, hscan, hW]⟩))
          | some e =>
            exact Or.inr (Or.inr (Or.inl ⟨sc, w', e, rfl, hW, by simp [Telnet.readIter, hd, hscan, hW]⟩))

/-- What the loop of `send` returns on an open session. -/
theorem sendLoop_outcome (fuel : Nat) (st : SendState) (c : Conn) (hc : st.t.conn = some c)
    (out : Outcome) (st' : SendState) (h : Telnet.sendLoop fuel st = some (out, st')) :
    ∃ e, out = .returned (some e)
      ∧ (e = ForceInterruptConnectionError ∨ e = LosingConnectionWithRemoteError
        ∨ e ∈ c.failures) := by
  induction fuel generalizing st c with
  | zero => simp [Telnet.sendLoop] at h
  | succ n ih =>
    rcases sendIter_cases st c hc with h1 | ⟨sc, _, h1⟩ | ⟨sc, c', e, _, hW, h1⟩ | ⟨sc, c', _, hW, h1⟩
    · simp [Telnet.sendLoop, h1] at h
      exact ⟨_, h.1.symm, Or.inr (Or.inl rfl)⟩
    · simp [Telnet.sendLoop, h1] at h
      exact ⟨_, h.1.symm, Or.inl rfl⟩
    · simp [Telnet.sendLoop, h1] at h
      exact ⟨e, h.1.symm, Or.inr (Or.inr (conn_write_fails hW))⟩
    · simp only [Telnet.sendLoop, h1] at h
      obtain ⟨e, he, hcase⟩ := ih _ c' rfl h
      refine ⟨e, he, ?_⟩
      rcases hcase with h2 | h2 | h2
      · exact Or.inl h2
      · exact Or.inr (Or.inl h2)
      · exact Or.inr (Or.inr (conn_write_succeeds hW e h2))

/-- What the loop of `read` returns. -/
theorem readLoop_outcome (fuel : Nat) (rt : ReadState)
    (out : Outcome) (rt' : ReadState) (h : Telnet.readLoop fuel rt = some (out, rt')) :
    ∃ e, out = .returned (some e)
      ∧ (e = ForceInterruptConnectionError ∨ e = LosingConnectionWithRemoteError
        ∨ e ∈ rt.w.failures) := by
  induction fuel generalizing rt with
  | zero => simp [Telnet.readLoop] at h
  | succ n ih =>
    rcases readIter_cases rt with h1 | ⟨sc, _, h1⟩ | ⟨sc, w', e, _, hW, h1⟩ | ⟨sc, w', _, hW, h1⟩
    · simp [Telnet.readLoop, h1] at h
      exact ⟨_, h.1.symm, Or.inl rfl⟩
    · simp [Telnet.readLoop, h1] at h
      exact ⟨_, h.1.symm, Or.inr (Or.inl rfl)⟩
    · simp [Telnet.readLoop, h1] at h
      exact ⟨e, h.1.symm, Or.inr (Or.inr (sink_write_fails hW))⟩
    · simp only [Telnet.readLoop, h1] at h
      obtain ⟨e, he, hcase⟩ := ih _ h
      refine ⟨e, he, ?_⟩
      rcases hcase with h2 | h2 | h2
      · exact Or.inl h2
      · exact Or.inr (Or.inl h2)
      · exact Or.inr (Or.inr (sink_write_succeeds hW e h2))

/-- An index of a byte lies within the list. -/
theorem IndexByte_lt {l : List Byte} {c : Byte} {i : Nat} (h : IndexByte l c = some i) :
    i < l.length := by
  induction l generalizing i with
  | nil => simp [IndexByte] at h
  | cons b bs ih =>
    by_cases hb : b = c
    · simp [IndexByte, hb] at h
      simp [← h]
    · simp [IndexByte, hb] at h
      obtain ⟨j, hj, rfl⟩ := h
      simpa using ih hj

/-- A scan that yields a token uses up at least one byte. -/
theorem Scan_true_shrinks {s sc : Scanner} (h : s.Scan = (true, sc)) :
    sc.r.data.length < s.r.data.length ∧ sc.maxTokenSize = s.maxTokenSize := by
  unfold Scanner.Scan ScanLines at h
  simp only at h
  split at h
  · next advance token heq =>
    simp only [Prod.mk.injEq, true_and] at h
    subst h
    refine ⟨?_, rfl⟩
    simp only [List.length_drop]
    split at heq
    · simp at heq
    · next hne =>
      split at heq
      · next i hi =>
        have := IndexByte_lt hi
        simp only [Prod.mk.injEq] at heq
        simp only [List.length_take] at this
        omega
      · split at heq
        · next hEOF =>
          simp only [Prod.mk.injEq] at heq
          simp only [hEOF, Bool.true_and, List.isEmpty_iff] at hne
          have hlen : (List.take s.maxTokenSize s.r.data).length ≠ 0 := by
            intro h0
            exact hne (List.length_eq_zero.mp h0)
          simp only [List.length_take] at hlen heq
          omega
        · simp at heq
  · simp at h

/-- The loop of `send` returns when it has a pass for every byte left and one more. -/
theorem sendLoop_returns (fuel : Nat) (st : SendState) (c : Conn) (hc : st.t.conn = some c)
    (hfuel : st.scanner.r.data.length < fuel) : ∃ res, Telnet.sendLoop fuel st = some res := by
  induction fuel generalizing st c with
  | zero => omega
  | succ n ih =>
    rcases sendIter_cases st c hc with h1 | ⟨sc, _, h1⟩ | ⟨sc, c', e, _, _, h1⟩ | ⟨sc, c', hscan, _, h1⟩
    · exact ⟨_, by simp only [Telnet.sendLoop, h1]; rfl⟩
    · exact ⟨_, by simp only [Telnet.sendLoop, h1]; rfl⟩
    · exact ⟨_, by simp only [Telnet.sendLoop, h1]; rfl⟩
    · simp only [Telnet.sendLoop, h1]
      have := (Scan_true_shrinks hscan).1
      exact ih _ c' rfl (by simp only; omega)

/-- The loop of `read` returns when it has a pass for every byte left and one more. -/
theorem readLoop_returns (fuel : Nat) (rt : ReadState)
    (hfuel : rt.scanner.r.data.length < fuel) : ∃ res, Telnet.readLoop fuel rt = some res := by
  induction fuel generalizing rt with
  | zero => omega
  | succ n ih =>
    rcases readIter_cases rt with h1 | ⟨sc, _, h1⟩ | ⟨sc, w', e, _, _, h1⟩ | ⟨sc, w', hscan, _, h1⟩
    · exact ⟨_, by simp only [Telnet.readLoop, h1]; rfl⟩
    · exact ⟨_, by simp only [Telnet.readLoop, h1]; rfl⟩
    · exact ⟨_, by simp only [Telnet.readLoop, h1]; rfl⟩
    · simp only [Telnet.readLoop, h1]
      have := (Scan_true_shrinks hscan).1
      exact ih _ (by simp only; omega)

/-- No action restarts a stopped `send`. -/
theorem step_up_stopped (s : Session) (a : Action) (err : Option Error)
    (h : s.up = .stopped err) : (s.step a).up = .stopped err := by
  cases a with
  | sendIter => simp [Session.step, h]
  | readIter =>
    cases hdown : s.down with
    | running scanner =>
      simp only [Session.step, hdown]
      split <;> exact h
    | stopped e => simpa [Session.step, hdown] using h
    | crashed => simpa [Session.step, hdown] using h
  | cancel => exact h

/-- No action restarts a stopped `read`. -/
theorem step_down_stopped (s : Session) (a : Action) (err : Option Error)
    (h : s.down = .stopped err) : (s.step a).down = .stopped err := by
  cases a with
  | readIter => simp [Session.step, h]
  | sendIter =>
    cases hup : s.up with
    | running scanner =>
      simp only [Session.step, hup]
      split <;> exact h
    | stopped e => simpa [Session.step, hup] using h
    | crashed => simpa [Session.step, hup] using h
  | cancel => exact h

/-- Once the signal is set, it is set at every later step of a run. -/
theorem signals_of_done (actions : List Action) (s : Session) (h : s.t.Context.done = true) :
    s.signals actions = List.replicate (actions.length + 1) true := by
  induction actions generalizing s with
  | nil => simp [Session.signals, h]
  | cons a as ih =>
    simp only [Session.signals, h, ih (s.step a) (step_of_done s a h), List.length_cons]
    rfl

theorem dropCR_of_not_cr {l : List Byte} (h : l.getLast? ≠ some carriageReturn) :
    dropCR l = l := by
  simp [dropCR, h]

theorem dropCR_append_cr (l : List Byte) : dropCR (l ++ [carriageReturn]) = l := by
  simp [dropCR]

theorem frames_eq_wire {lines : List (List Byte)}
    (h : ∀ l ∈ lines, l.getLast? ≠ some carriageReturn) : frames lines = wire lines := by
  induction lines with
  | nil => rfl
  | cons l ls ih =>
    simp only [frames, wire]
    rw [dropCR_of_not_cr (h l (List.mem_cons_self _ _)),
      ih (fun x hx => h x (List.mem_cons_of_mem _ hx))]

theorem frames_append (as bs : List (List Byte)) : frames (as ++ bs) = frames as ++ frames bs := by
  induction as with
  | nil => rfl
  | cons l ls ih => simp [frames, ih]

theorem length_le_stream (lines : List (List Byte)) (tail : List Byte) :
    lines.length + (tailLines tail).length ≤ (stream lines tail).length := by
  induction lines with
  | nil =>
    cases tail with
    | nil => simp [stream, tailLines]
    | cons b bs => simp [stream, tailLines]
  | cons l ls ih =>
    simp only [stream, List.length_cons, List.length_append]
    omega

theorem sink_write_ok (w : Sink) (p : List Byte) (h : w.faults = []) :
    w.Write p = (⟨w.written ++ p, []⟩, none) := by
  cases w with
  | mk written faults =>
    simp only at h
    subst h
    rfl

theorem conn_write_ok (c : Conn) (p : List Byte) (hc : c.closed = false)
    (h : c.outbound.faults = []) :
    c.Write p = ({ c with outbound := ⟨c.outbound.written ++ p, []⟩ }, none) := by
  simp [Conn.Write, hc, sink_write_ok _ p h]

/-- The run of `send` over a stream of lines that fit the buffer, with the signal unset and every write succeeding. -/
theorem sendLoop_lines (lines : List (List Byte)) (tail : List Byte) :
    ∀ (fuel : Nat) (st : SendState) (c : Conn),
      st.t.Context.done = false → st.t.conn = some c → c.closed = false →
      c.outbound.faults = [] → st.scanner.r.data = stream lines tail →
      st.scanner.maxTokenSize = MaxScanTokenSize →
      (∀ l ∈ lines, newline ∉ l ∧ l.length < MaxScanTokenSize) →
      newline ∉ tail → tail.length < MaxScanTokenSize →
      lines.length + (tailLines tail).length < fuel →
      ∃ st', Telnet.sendLoop fuel st = some (.returned (some ForceInterruptConnectionError), st')
        ∧ st'.t.conn = some { c with outbound :=
            ⟨c.outbound.written ++ frames (lines ++ tailLines tail), []⟩ }
        ∧ st'.t.Context.done = true ∧ st'.scanner.r.data = [] := by
  induction lines with
  | nil =>
    intro fuel st c hd hc hcl hf hdata hmax _ hnl hlen hfuel
    simp only [stream] at hdata
    by_cases ht : tail = []
    · subst ht
      obtain ⟨n, rfl⟩ : ∃ n, fuel = n + 1 := ⟨fuel - 1, by omega⟩
      refine ⟨{ t := st.t.ContextCancel, scanner := st.scanner.Scan.2 }, ?_, ?_, rfl, ?_⟩
      · simp [Telnet.sendLoop, Telnet.sendIter, hd, Scan_dry _ hdata]
      · cases c with
        | mk i o cl =>
          cases o with
          | mk wr fl =>
            simp only at hf
            subst hf
            simp [Telnet.ContextCancel, hc, tailLines, frames]
      · simp [Scan_dry _ hdata, hdata]
    · have hlen1 : (tailLines tail).length = 1 := by simp [tailLines, ht]
      obtain ⟨n, rfl⟩ : ∃ n, fuel = n + 2 := ⟨fuel - 2, by simp only [hlen1, List.length_nil] at hfuel; omega⟩
      have hne : st.scanner.r.data ≠ [] := by rw [hdata]; exact ht
      have hscan := Scan_tail st.scanner hne (by rw [hdata]; exact hnl) (by rw [hdata, hmax]; exact hlen)
      refine ⟨{ t := ({ st.t with conn := some { c with outbound :=
                  ⟨c.outbound.written ++ (dropCR tail ++ DataSeparator), []⟩ } } : Telnet).ContextCancel,
                scanner := ({ st.scanner with r := ⟨[], st.scanner.r.fin⟩,
                                              token := dropCR st.scanner.r.data } : Scanner).Scan.2 },
        ?_, ?_, rfl, ?_⟩
      · rw [Telnet.sendLoop]
        simp only [Telnet.sendIter, hd, hscan, hc, Scanner.Text, hdata,
          conn_write_ok c _ hcl hf, Bool.false_eq_true, if_false]
        rw [Telnet.sendLoop]
        simp only [Telnet.sendIter, hd, Bool.false_eq_true, if_false]
        rw [Scan_dry _ rfl]
      · simp [Telnet.ContextCancel, tailLines, ht, frames]
      · rw [Scan_dry _ rfl]
  | cons l ls ih =>
    intro fuel st c hd hc hcl hf hdata hmax hlines hnl hlen hfuel
    obtain ⟨n, rfl⟩ : ∃ n, fuel = n + 1 := ⟨fuel - 1, by omega⟩
    have hl := hlines l (List.mem_cons_self _ _)
    simp only [stream] at hdata
    have hscan := Scan_line st.scanner l (stream ls tail) hdata hl.1 (by rw [hmax]; exact hl.2)
    obtain ⟨st', hrun, hconn, hdone, hsrc⟩ := ih n
      { t := { st.t with conn := some { c with outbound :=
                  ⟨c.outbound.written ++ (dropCR l ++ DataSeparator), []⟩ } },
        scanner := { st.scanner with r := ⟨stream ls tail, st.scanner.r.fin⟩, token := dropCR l } }
      { c with outbound := ⟨c.outbound.written ++ (dropCR l ++ DataSeparator), []⟩ }
      hd rfl hcl rfl rfl hmax (fun x hx => hlines x (List.mem_cons_of_mem _ hx)) hnl hlen
      (by simp only [List.length_cons] at hfuel; omega)
    refine ⟨st', ?_, ?_, hdone, hsrc⟩
    · rw [Telnet.sendLoop]
      simp only [Telnet.sendIter, hd, hscan, hc, Scanner.Text,
        conn_write_ok c _ hcl hf, Bool.false_eq_true, if_false]
      exact hrun
    · rw [hconn]
      simp [frames, List.append_assoc]

/-- The run of `read` over a stream of lines that fit the buffer, with the signal unset and every write succeeding. -/
theorem readLoop_lines (lines : List (List Byte)) (tail : List Byte) :
    ∀ (fuel : Nat) (rt : ReadState),
      rt.t.Context.done = false → rt.w.faults = [] → rt.scanner.r.data = stream lines tail →
      rt.scanner.maxTokenSize = MaxScanTokenSize →
      (∀ l ∈ lines, newline ∉ l ∧ l.length < MaxScanTokenSize) →
      newline ∉ tail → tail.length < MaxScanTokenSize →
      lines.length + (tailLines tail).length < fuel →
      ∃ rt', Telnet.readLoop fuel rt
          = some (.returned (some LosingConnectionWithRemoteError), rt')
        ∧ rt'.w = ⟨rt.w.written ++ frames (lines ++ tailLines tail), []⟩
        ∧ rt'.t = rt.t.ContextCancel ∧ rt'.t.Context.done = true ∧ rt'.scanner.r.data = [] := by
  induction lines with
  | nil =>
    intro fuel rt hd hf hdata hmax _ hnl hlen hfuel
    simp only [stream] at hdata
    by_cases ht : tail = []
    · subst ht
      obtain ⟨n, rfl⟩ : ∃ n, fuel = n + 1 := ⟨fuel - 1, by omega⟩
      refine ⟨{ rt with t := rt.t.ContextCancel, scanner := rt.scanner.Scan.2 }, ?_, ?_, rfl, rfl, ?_⟩
      · simp [Telnet.readLoop, Telnet.readIter, hd, Scan_dry _ hdata]
      · cases hw : rt.w with
        | mk wr fl =>
          rw [hw] at hf
          simp only at hf
          subst hf
          simp [tailLines, frames]
      · simp [Scan_dry _ hdata, hdata]
    · have hlen1 : (tailLines tail).length = 1 := by simp [tailLines, ht]
      obtain ⟨n, rfl⟩ : ∃ n, fuel = n + 2 := ⟨fuel - 2, by simp only [hlen1, List.length_nil] at hfuel; omega⟩
      have hne : rt.scanner.r.data ≠ [] := by rw [hdata]; exact ht
      have hscan := Scan_tail rt.scanner hne (by rw [hdata]; exact hnl) (by rw [hdata, hmax]; exact hlen)
      refine ⟨{ t := rt.t.ContextCancel,
                scanner := ({ rt.scanner with r := ⟨[], rt.scanner.r.fin⟩,
                                              token := dropCR rt.scanner.r.data } : Scanner).Scan.2,
                w := ⟨rt.w.written ++ (dropCR tail ++ DataSeparator), []⟩ },
        ?_, ?_, rfl, rfl, ?_⟩
      · rw [Telnet.readLoop]
        simp only [Telnet.readIter, hd, hscan, Scanner.Text, hdata,
          sink_write_ok rt.w _ hf, Bool.false_eq_true, if_false]
        rw [Telnet.readLoop]
        simp only [Telnet.readIter, hd, Bool.false_eq_true, if_false]
        rw [Scan_dry _ rfl]
      · simp [tailLines, ht, frames]
      · rw [Scan_dry _ rfl]
  | cons l ls ih =>
    intro fuel rt hd hf hdata hmax hlines hnl hlen hfuel
    obtain ⟨n, rfl⟩ : ∃ n, fuel = n + 1 := ⟨fuel - 1, by omega⟩
    have hl := hlines l (List.mem_cons_self _ _)
    simp only [stream] at hdata
    have hscan := Scan_line rt.scanner l (stream ls tail) hdata hl.1 (by rw [hmax]; exact hl.2)
    obtain ⟨rt', hrun, hw, ht, hdone, hsrc⟩ := ih n
      { t := rt.t,
        scanner := { rt.scanner with r := ⟨stream ls tail, rt.scanner.r.fin⟩, token := dropCR l },
        w := ⟨rt.w.written ++ (dropCR l ++ DataSeparator), []⟩ }
      hd rfl rfl hmax (fun x hx => hlines x (List.mem_cons_of_mem _ hx)) hnl hlen
      (by simp only [List.length_cons] at hfuel; omega)
    refine ⟨rt', ?_, ?_, ht, hdone, hsrc⟩
    · rw [Telnet.readLoop]
      simp only [Telnet.readIter, hd, hscan, Scanner.Text,
        sink_write_ok rt.w _ hf, Bool.false_eq_true, if_false]
      exact hrun
    · rw [hw]
      simp [frames, List.append_assoc]

/-- A stream of texts with terminators is the stream of their raw lines. -/
theorem received_eq_stream (texts : List (List Byte × Terminator)) (tail : List Byte) :
    received texts tail = stream (texts.map rawLine) tail := by
  induction texts with
  | nil => rfl
  | cons x xs ih =>
    obtain ⟨text, τ⟩ := x
    cases τ <;> simp [received, stream, rawLine, Terminator.bytes, ih]

/-- The frames of raw lines are the texts followed by the separator. -/
theorem frames_rawLine (texts : List (List Byte × Terminator))
    (h : ∀ x ∈ texts, x.2 = .lf → x.1.getLast? ≠ some carriageReturn) :
    frames (texts.map rawLine) = wire (texts.map Prod.fst) := by
  induction texts with
  | nil => rfl
  | cons x xs ih =>
    obtain ⟨text, τ⟩ := x
    have hx := h (text, τ) (List.mem_cons_self _ _)
    have ih' := ih (fun y hy => h y (List.mem_cons_of_mem _ hy))
    cases τ with
    | lf => simp [frames, wire, rawLine, dropCR_of_not_cr (hx rfl), ih']
    | crlf => simp [frames, wire, rawLine, dropCR_append_cr, ih']

theorem longLine_length (n : Nat) : (longLine n).length = n := by
  simp [longLine]

theorem newline_not_mem_longLine (n : Nat) : newline ∉ longLine n := by
  intro h
  have := List.eq_of_mem_replicate h
  exact absurd this (by decide)

theorem take_longLine_append (n : Nat) (rest : List Byte) :
    (longLine n ++ rest).take n = longLine n := by
  exact @List.take_left' Byte (longLine n) rest n (longLine_length n)

/-- The loop of `send` when the scan of its first pass returns false. -/
theorem sendLoop_scan_fails (fuel : Nat) (st : SendState) (sc : Scanner)
    (hd : st.t.Context.done = false) (hscan : st.scanner.Scan = (false, sc)) :
    Telnet.sendLoop (fuel + 1) st
      = some (.returned (some ForceInterruptConnectionError),
          { t := st.t.ContextCancel, scanner := sc }) := by
  simp [Telnet.sendLoop, Telnet.sendIter, hd, hscan]

/-- The loop of `read` when the scan of its first pass returns false. -/
theorem readLoop_scan_fails (fuel : Nat) (rt : ReadState) (sc : Scanner)
    (hd : rt.t.Context.done = false) (hscan : rt.scanner.Scan = (false, sc)) :
    Telnet.readLoop (fuel + 1) rt
      = some (.returned (some LosingConnectionWithRemoteError),
          { rt with t := rt.t.ContextCancel, scanner := sc }) := by
  simp [Telnet.readLoop, Telnet.readIter, hd, hscan]

/-- A fresh scanner over a line of `MaxScanTokenSize` bytes or more fails with `ErrTooLong`. -/
theorem Scan_longLine (r : Reader) (rest : List Byte) (hdata : r.data = longLine MaxScanTokenSize ++ rest) :
    (NewScanner r).Scan = (false, { NewScanner r with token := [], err := some ErrTooLong }) := by
  apply Scan_tooLong
  · show newline ∉ List.take MaxScanTokenSize r.data
    rw [hdata, take_longLine_append]
    exact newline_not_mem_longLine _
  · show MaxScanTokenSize ≤ r.data.length
    rw [hdata, List.length_append, longLine_length]
    omega

theorem wire_append (as bs : List (List Byte)) : wire (as ++ bs) = wire as ++ wire bs := by
  induction as with
  | nil => rfl
  | cons l ls ih => simp [wire, ih]

theorem read_exampleTelnet (inbound : List Byte) (w : Sink) :
    (exampleTelnet inbound).read w
      = Telnet.readLoop (inbound.length + 1)
          { t := exampleTelnet inbound, scanner := NewScanner ⟨inbound, none⟩, w := w } :=
  rfl

/-- The loop of `send` with the signal set returns at once. -/
theorem sendLoop_of_done (fuel : Nat) (st : SendState) (h : st.t.Context.done = true) :
    Telnet.sendLoop (fuel + 1) st
      = some (.returned (some LosingConnectionWithRemoteError), st) := by
  simp [Telnet.sendLoop, sendIter_of_done st h]

/-- The loop of `read` with the signal set returns at once. -/
theorem readLoop_of_done (fuel : Nat) (rt : ReadState) (h : rt.t.Context.done = true) :
    Telnet.readLoop (fuel + 1) rt
      = some (.returned (some ForceInterruptConnectionError), rt) := by
  simp [Telnet.readLoop, readIter_of_done rt h]

/-- What the loop of `send` returns on a session without a connection. -/
theorem sendLoop_outcome_unopened (fuel : Nat) (st : SendState) (hc : st.t.conn = none)
    (out : Outcome) (st' : SendState) (h : Telnet.sendLoop fuel st = some (out, st')) :
    out = .nilDeref ∨ out = .returned (some ForceInterruptConnectionError)
      ∨ out = .returned (some LosingConnectionWithRemoteError) := by
  cases fuel with
  | zero => simp [Telnet.sendLoop] at h
  | succ n =>
    by_cases hd : st.t.Context.done = true
    · rw [sendLoop_of_done n st hd] at h
      simp only [Option.some.injEq, Prod.mk.injEq] at h
      exact Or.inr (Or.inr h.1.symm)
    · cases hscan : st.scanner.Scan with
      | mk ok sc =>
        cases ok with
        | false =>
          simp [Telnet.sendLoop, Telnet.sendIter, hd, hscan] at h
          exact Or.inr (Or.inl h.1.symm)
        | true =>
          simp [Telnet.sendLoop, Telnet.sendIter, hd, hscan, hc] at h
          exact Or.inl h.1.symm

/-! ## The claims -/

/-- C1 (amended). Uplink framing: when the input stream supplies lines that
hold no "\n" and are shorter than 65536 bytes, each terminated by "\n" or the
last one unterminated before the input ends, the cancellation signal is unset
and the connection accepts every write, `send` writes to the connection one
frame per line, in input order, and nothing else, then sets the signal and
returns `ForceInterruptConnectionError`.  The frame of a line is the line
without one terminal "\r", followed by a single "\n"; so it is exactly the
bytes of the line and "\n" for every line that does not end in "\r". -/
theorem uplink_framing (t : Telnet) (c : Conn) (lines : List (List Byte)) (tail : List Byte)
    (fin : Option Error)
    (hd : t.Context.done = false) (hc : t.conn = some c) (hcl : c.closed = false)
    (hf : c.outbound.faults = [])
    (hlines : ∀ l ∈ lines, newline ∉ l ∧ l.length < MaxScanTokenSize)
    (hnl : newline ∉ tail) (hlen : tail.length < MaxScanTokenSize) :
    (∃ st', t.send ⟨stream lines tail, fin⟩
        = some (.returned (some ForceInterruptConnectionError), st')
      ∧ st'.t.conn = some { c with outbound :=
          ⟨c.outbound.written ++ frames (lines ++ tailLines tail), []⟩ }
      ∧ st'.t.Context.done = true)
    ∧ ((∀ l ∈ lines ++ tailLines tail, l.getLast? ≠ some carriageReturn) →
      frames (lines ++ tailLines tail) = wire (lines ++ tailLines tail)) := by
  refine ⟨?_, frames_eq_wire⟩
  obtain ⟨st', hrun, hconn, hdone, _⟩ := sendLoop_lines lines tail
    ((stream lines tail).length + 1) { t := t, scanner := NewScanner ⟨stream lines tail, fin⟩ } c
    hd hc hcl hf rfl rfl hlines hnl hlen
    (Nat.lt_succ_of_le (length_le_stream lines tail))
  exact ⟨st', hrun, hconn, hdone⟩

/-- C1 at the input "hello" followed by the end of input: the connection
receives the bytes of "hello" and "\n". -/
theorem uplink_framing_witness :
    ∃ st', (exampleTelnet []).send ⟨[104, 101, 108, 108, 111], none⟩
        = some (.returned (some ForceInterruptConnectionError), st')
      ∧ st'.t.conn = some { exampleConn [] with outbound := ⟨[104, 101, 108, 108, 111, 10], []⟩ }
      ∧ st'.t.Context.done = true :=
  (uplink_framing (exampleTelnet []) (exampleConn []) [] [104, 101, 108, 108, 111] none
    (by decide) (by decide) (by decide) (by decide) (by simp) (by decide) (by decide)).1

/-- C1 fails as stated.  The line "a\r" terminated by "\n" reaches the
connection as "a\n", not as "a\r\n"; and a line of 65536 bytes "a" terminated
by "\n" does not reach the connection at all. -/
theorem uplink_framing_counterexample :
    (((exampleTelnet []).send ⟨[97, 13, 10], none⟩).map (fun res => (res.1, res.2.t.conn))
        = some (.returned (some ForceInterruptConnectionError),
            some { exampleConn [] with outbound := ⟨[97, 10], []⟩ })
      ∧ ([97, 10] : List Byte) ≠ wire [[97, 13]])
    ∧ (((exampleTelnet []).send ⟨longLine MaxScanTokenSize ++ [newline], none⟩).map
          (fun res => (res.1, res.2.t.conn))
        = some (.returned (some ForceInterruptConnectionError), some (exampleConn []))
      ∧ (exampleConn []).outbound.written = []
      ∧ wire [longLine MaxScanTokenSize] ≠ []) := by
  refine ⟨⟨by decide, by decide⟩, ⟨?_, rfl, ?_⟩⟩
  · rw [Telnet.send, sendLoop_scan_fails _ _ _ (by decide) (Scan_longLine _ [newline] rfl)]
    rfl
  · simp [wire, DataSeparator]

/-- C2 (amended). Downlink re-termination: when the connection delivers texts
that hold no "\n", each terminated by "\n" or by "\r\n" (fewer than 65536
bytes before the "\n") or the last one unterminated and shorter than 65536
bytes, the cancellation signal is unset and the local writer accepts every
write, `read` writes to the writer, for each text in order, exactly the text
followed by a single "\n", and nothing else, whichever of the three ways the
text arrived; it then sets the signal and returns
`LosingConnectionWithRemoteError`.  A text that arrives before a bare "\n" or
unterminated is taken not to end in "\r". -/
theorem downlink_retermination (t : Telnet) (c : Conn) (w : Sink)
    (texts : List (List Byte × Terminator)) (tail : List Byte)
    (hd : t.Context.done = false) (hc : t.conn = some c) (hcl : c.closed = false)
    (hin : c.inbound.data = received texts tail) (hf : w.faults = [])
    (htexts : ∀ x ∈ texts, newline ∉ x.1
      ∧ (x.2 = .lf → x.1.getLast? ≠ some carriageReturn)
      ∧ (rawLine x).length < MaxScanTokenSize)
    (hnl : newline ∉ tail) (hcr : tail.getLast? ≠ some carriageReturn)
    (hlen : tail.length < MaxScanTokenSize) :
    ∃ rt', t.read w = some (.returned (some LosingConnectionWithRemoteError), rt')
      ∧ rt'.w = ⟨w.written ++ wire (texts.map Prod.fst ++ tailLines tail), []⟩
      ∧ rt'.t.Context.done = true := by
  have hraw : ∀ l ∈ texts.map rawLine, newline ∉ l ∧ l.length < MaxScanTokenSize := by
    intro l hl
    obtain ⟨x, hx, rfl⟩ := List.mem_map.mp hl
    obtain ⟨h1, _, h3⟩ := htexts x hx
    refine ⟨?_, h3⟩
    obtain ⟨text, τ⟩ := x
    cases τ with
    | lf => exact h1
    | crlf =>
      intro hmem
      rcases List.mem_append.mp hmem with h | h
      · exact h1 h
      · exact absurd (List.mem_singleton.mp h) (by decide)
  have hreader : c.reader = c.inbound := by simp [Conn.reader, hcl]
  obtain ⟨rt', hrun, hw, _, hdone, _⟩ := readLoop_lines (texts.map rawLine) tail
    (c.reader.data.length + 1) { t := t, scanner := NewScanner c.reader, w := w }
    hd hf (by show c.reader.data = _; rw [hreader, hin, received_eq_stream]) rfl hraw hnl hlen
    (by
      rw [hreader, hin, received_eq_stream]
      exact Nat.lt_succ_of_le (length_le_stream _ tail))
  refine ⟨rt', by simp only [Telnet.read, hc, hrun], ?_, hdone⟩
  rw [hw, frames_append, frames_rawLine texts (fun x hx => (htexts x hx).2.1)]
  have htail : frames (tailLines tail) = wire (tailLines tail) := by
    apply frames_eq_wire
    intro l hl
    by_cases ht : tail = []
    · simp [tailLines, ht] at hl
    · simp only [tailLines, List.isEmpty_iff, ht, if_false, List.mem_singleton] at hl
      rw [hl]
      exact hcr
  rw [htail]
  simp only
  congr 1
  rw [wire_append]

/-- C2 at the text "hi" arriving as "hi\n", as "hi\r\n" and as "hi" before
the peer closes: the writer receives "hi\n" each time. -/
theorem downlink_retermination_witness :
    (∃ rt', (exampleTelnet [104, 105, 10]).read ⟨[], []⟩
        = some (.returned (some LosingConnectionWithRemoteError), rt')
      ∧ rt'.w = ⟨[104, 105, 10], []⟩ ∧ rt'.t.Context.done = true)
    ∧ (∃ rt', (exampleTelnet [104, 105, 13, 10]).read ⟨[], []⟩
        = some (.returned (some LosingConnectionWithRemoteError), rt')
      ∧ rt'.w = ⟨[104, 105, 10], []⟩ ∧ rt'.t.Context.done = true)
    ∧ (∃ rt', (exampleTelnet [104, 105]).read ⟨[], []⟩
        = some (.returned (some LosingConnectionWithRemoteError), rt')
      ∧ rt'.w = ⟨[104, 105, 10], []⟩ ∧ rt'.t.Context.done = true) :=
  ⟨downlink_retermination (exampleTelnet [104, 105, 10]) (exampleConn [104, 105, 10]) ⟨[], []⟩
      [([104, 105], .lf)] [] (by decide) (by decide) (by decide) (by decide) (by decide)
      (by decide) (by decide) (by decide) (by decide),
    downlink_retermination (exampleTelnet [104, 105, 13, 10]) (exampleConn [104, 105, 13, 10])
      ⟨[], []⟩ [([104, 105], .crlf)] [] (by decide) (by decide) (by decide) (by decide)
      (by decide) (by decide) (by decide) (by decide) (by decide),
    downlink_retermination (exampleTelnet [104, 105]) (exampleConn [104, 105]) ⟨[], []⟩
      [] [104, 105] (by decide) (by decide) (by decide) (by decide) (by decide)
      (by decide) (by decide) (by decide) (by decide)⟩

/-- C2 fails as stated.  A received line of 65536 bytes "a" is not written at
all; with the cancellation signal set, the received line "hi" is not written;
when the write of the line "a" fails after one byte, neither the rest of that
frame nor the line "b" after it is written; and the bytes "a\r" received
before the peer closes are written as "a\n". -/
theorem downlink_retermination_counterexample :
    (((exampleTelnet (longLine MaxScanTokenSize ++ [newline])).read ⟨[], []⟩).map
          (fun res => (res.1, res.2.w))
        = some (.returned (some LosingConnectionWithRemoteError), ⟨[], []⟩)
      ∧ wire [longLine MaxScanTokenSize] ≠ [])
    ∧ (((exampleTelnet [104, 105, 10]).ContextCancel.read ⟨[], []⟩).map
          (fun res => (res.1, res.2.w))
        = some (.returned (some ForceInterruptConnectionError), ⟨[], []⟩))
    ∧ ((readFullDisk.t.read readFullDisk.w).map (fun res => (res.1, res.2.w))
        = some (.returned (some (errno 28)), ⟨[97], []⟩))
    ∧ (((exampleTelnet [97, 13]).read ⟨[], []⟩).map (fun res => (res.1, res.2.w))
        = some (.returned (some LosingConnectionWithRemoteError), ⟨[97, 10], []⟩)
      ∧ ([97, 10] : List Byte) ≠ wire [[97, 13]]) := by
  refine ⟨⟨?_, ?_⟩, by decide, by decide, by decide, by decide⟩
  · rw [read_exampleTelnet,
      readLoop_scan_fails _ _ _ (by decide) (Scan_longLine _ [newline] rfl)]
    rfl
  · simp [wire, DataSeparator]

/-- C3. Self-detected termination: when the source of a relay has no further
line and the cancellation signal is unset at the loop check, the pass sets the
signal and the relay returns its own end-of-stream sentinel: `send` returns
`ForceInterruptConnectionError`, `read` returns
`LosingConnectionWithRemoteError`, and the signal is set in the state left
behind. -/
theorem self_detected_termination (st : SendState) (rt : ReadState) (fuel : Nat)
    (hs : st.t.Context.done = false) (hsrc : st.scanner.r.data = [])
    (hr : rt.t.Context.done = false) (hrsrc : rt.scanner.r.data = []) :
    (∃ st', Telnet.sendLoop (fuel + 1) st
        = some (.returned (some ForceInterruptConnectionError), st')
      ∧ st'.t = st.t.ContextCancel ∧ st'.t.Context.done = true ∧ st'.t.conn = st.t.conn)
    ∧ (∃ rt', Telnet.readLoop (fuel + 1) rt
        = some (.returned (some LosingConnectionWithRemoteError), rt')
      ∧ rt'.t = rt.t.ContextCancel ∧ rt'.t.Context.done = true ∧ rt'.w = rt.w) := by
  constructor
  · refine ⟨{ t := st.t.ContextCancel, scanner := st.scanner.Scan.2 }, ?_, rfl, rfl, rfl⟩
    simp [Telnet.sendLoop, Telnet.sendIter, hs, Scan_dry _ hsrc]
  · refine ⟨{ rt with t := rt.t.ContextCancel, scanner := rt.scanner.Scan.2 }, ?_, rfl, rfl, rfl⟩
    simp [Telnet.readLoop, Telnet.readIter, hr, Scan_dry _ hrsrc]

/-- C3 at the open example session with empty standard input and a peer that
has sent nothing. -/
theorem self_detected_termination_witness :
    (∃ st', Telnet.sendLoop 1 { t := exampleTelnet [], scanner := NewScanner ⟨[], none⟩ }
        = some (.returned (some ForceInterruptConnectionError), st')
      ∧ st'.t = (exampleTelnet []).ContextCancel ∧ st'.t.Context.done = true
      ∧ st'.t.conn = (exampleTelnet []).conn)
    ∧ (∃ rt', Telnet.readLoop 1
          { t := exampleTelnet [], scanner := NewScanner (exampleConn []).reader, w := ⟨[], []⟩ }
        = some (.returned (some LosingConnectionWithRemoteError), rt')
      ∧ rt'.t = (exampleTelnet []).ContextCancel ∧ rt'.t.Context.done = true
      ∧ rt'.w = ⟨[], []⟩) :=
  self_detected_termination { t := exampleTelnet [], scanner := NewScanner ⟨[], none⟩ }
    { t := exampleTelnet [], scanner := NewScanner (exampleConn []).reader, w := ⟨[], []⟩ } 0
    (by decide) (by decide) (by decide) (by decide)

/-- C4. Cancellation observed: when the cancellation signal is set at a loop
check, whatever pass of the loop it is, the relay returns at once, with the
scanner, the connection and the writer as they were (no line is read, nothing
is written): `send` returns `LosingConnectionWithRemoteError` and `read`
returns `ForceInterruptConnectionError`. -/
theorem cancellation_observed (st : SendState) (rt : ReadState) (fuel : Nat)
    (hs : st.t.Context.done = true) (hr : rt.t.Context.done = true) :
    Telnet.sendIter st = .ret (some LosingConnectionWithRemoteError) st
    ∧ Telnet.sendLoop (fuel + 1) st = some (.returned (some LosingConnectionWithRemoteError), st)
    ∧ Telnet.readIter rt = .ret (some ForceInterruptConnectionError) rt
    ∧ Telnet.readLoop (fuel + 1) rt = some (.returned (some ForceInterruptConnectionError), rt) := by
  simp [Telnet.sendLoop, Telnet.sendIter, Telnet.readLoop, Telnet.readIter, hs, hr]

/-- C4 at the second pass of `send` and the first pass of `read`, both after
a cancellation that came between the passes. -/
theorem cancellation_observed_witness :
    cancelledMidway.up = .running scannerAfterA
    ∧ Telnet.sendIter { t := cancelledMidway.t, scanner := scannerAfterA }
        = .ret (some LosingConnectionWithRemoteError)
            { t := cancelledMidway.t, scanner := scannerAfterA }
    ∧ Telnet.sendLoop 3 { t := cancelledMidway.t, scanner := scannerAfterA }
        = some (.returned (some LosingConnectionWithRemoteError),
            { t := cancelledMidway.t, scanner := scannerAfterA })
    ∧ Telnet.readIter
          { t := cancelledMidway.t, scanner := NewScanner ⟨[104, 105, 10], none⟩, w := ⟨[], []⟩ }
        = .ret (some ForceInterruptConnectionError)
            { t := cancelledMidway.t, scanner := NewScanner ⟨[104, 105, 10], none⟩, w := ⟨[], []⟩ }
    ∧ Telnet.readLoop 3
          { t := cancelledMidway.t, scanner := NewScanner ⟨[104, 105, 10], none⟩, w := ⟨[], []⟩ }
        = some (.returned (some ForceInterruptConnectionError),
            { t := cancelledMidway.t, scanner := NewScanner ⟨[104, 105, 10], none⟩, w := ⟨[], []⟩ }) :=
  ⟨by decide,
    cancellation_observed { t := cancelledMidway.t, scanner := scannerAfterA }
      { t := cancelledMidway.t, scanner := NewScanner ⟨[104, 105, 10], none⟩, w := ⟨[], []⟩ } 2
      (by decide) (by decide)⟩

/-- C5. Write failure: when the write of a frame fails (the write of `send` to
the connection, the write of `read` to the local writer), the relay returns
that error at once: the scanner is left as it was after the one `Scan` of the
pass, the connection or writer as the failed write left it, and the
cancellation signal as it was before the write. -/
theorem write_failure (st : SendState) (rt : ReadState) (fuel : Nat)
    (sc : Scanner) (conn conn' : Conn) (e : Error) (rsc : Scanner) (w' : Sink) (e' : Error)
    (hs : st.t.Context.done = false) (hscan : st.scanner.Scan = (true, sc))
    (hconn : st.t.conn = some conn)
    (hw : conn.Write (sc.Text ++ DataSeparator) = (conn', some e))
    (hr : rt.t.Context.done = false) (hrscan : rt.scanner.Scan = (true, rsc))
    (hrw : rt.w.Write (rsc.Text ++ DataSeparator) = (w', some e')) :
    (∃ st', Telnet.sendLoop (fuel + 1) st = some (.returned (some e), st')
      ∧ st'.scanner = sc ∧ st'.t.conn = some conn' ∧ st'.t.Context = st.t.Context
      ∧ st'.t.Context.done = false)
    ∧ (∃ rt', Telnet.readLoop (fuel + 1) rt = some (.returned (some e'), rt')
      ∧ rt'.scanner = rsc ∧ rt'.w = w' ∧ rt'.t = rt.t ∧ rt'.t.Context.done = false) := by
  constructor
  · refine ⟨{ t := { st.t with conn := some conn' }, scanner := sc }, ?_, rfl, rfl, rfl, hs⟩
    simp [Telnet.sendLoop, Telnet.sendIter, hs, hscan, hconn, hw]
  · refine ⟨{ rt with scanner := rsc, w := w' }, ?_, rfl, rfl, rfl, hr⟩
    simp [Telnet.readLoop, Telnet.readIter, hr, hrscan, hrw]

/-- C5 with the lines "a" and "b" on either side, a connection whose write
fails with a broken pipe and a local writer whose write fails after one byte. -/
theorem write_failure_witness :
    (∃ st', Telnet.sendLoop 5 { t := brokenTelnet, scanner := NewScanner ⟨[97, 10, 98, 10], none⟩ }
        = some (.returned (some (errno 32)), st')
      ∧ st'.scanner = scannerAfterA
      ∧ st'.t.conn = some { brokenConn with outbound := ⟨[], []⟩ }
      ∧ st'.t.Context = brokenTelnet.Context ∧ st'.t.Context.done = false)
    ∧ (∃ rt', Telnet.readLoop 5 readFullDisk = some (.returned (some (errno 28)), rt')
      ∧ rt'.scanner = scannerAfterA ∧ rt'.w = ⟨[97], []⟩ ∧ rt'.t = readFullDisk.t
      ∧ rt'.t.Context.done = false) :=
  write_failure { t := brokenTelnet, scanner := NewScanner ⟨[97, 10, 98, 10], none⟩ }
    readFullDisk 4 scannerAfterA brokenConn { brokenConn with outbound := ⟨[], []⟩ } (errno 32)
    scannerAfterA ⟨[97], []⟩ (errno 28)
    (by decide) (by decide) (by decide) (by decide) (by decide) (by decide) (by decide)

/-- C6. Relay outcomes: on an open session `send` and `read` always return,
and what they return is never nil: it is one of the two sentinels
`ForceInterruptConnectionError` and `LosingConnectionWithRemoteError`, or an
error with which a write of the connection (for `send`) or of the local writer
(for `read`) fails; the same holds for the loops started in any state and run
for any number of passes (on a session without a connection `send` returns
one of the two sentinels whenever it returns at all).  A relay that has
stopped stays stopped, with the error it returned, whatever happens next. -/
theorem relay_outcomes :
    (∀ (t : Telnet) (c : Conn) (r : Reader), t.conn = some c →
      ∃ e st', t.send r = some (.returned (some e), st')
        ∧ (e = ForceInterruptConnectionError ∨ e = LosingConnectionWithRemoteError
          ∨ e ∈ c.failures))
    ∧ (∀ (t : Telnet) (c : Conn) (w : Sink), t.conn = some c →
      ∃ e rt', t.read w = some (.returned (some e), rt')
        ∧ (e = ForceInterruptConnectionError ∨ e = LosingConnectionWithRemoteError
          ∨ e ∈ w.failures))
    ∧ (∀ (fuel : Nat) (st : SendState) (c : Conn) (out : Outcome) (st' : SendState),
      st.t.conn = some c → Telnet.sendLoop fuel st = some (out, st') →
      ∃ e, out = .returned (some e)
        ∧ (e = ForceInterruptConnectionError ∨ e = LosingConnectionWithRemoteError
          ∨ e ∈ c.failures))
    ∧ (∀ (fuel : Nat) (rt : ReadState) (out : Outcome) (rt' : ReadState),
      Telnet.readLoop fuel rt = some (out, rt') →
      ∃ e, out = .returned (some e)
        ∧ (e = ForceInterruptConnectionError ∨ e = LosingConnectionWithRemoteError
          ∨ e ∈ rt.w.failures))
    ∧ (∀ (fuel : Nat) (st : SendState) (out : Outcome) (st' : SendState),
      st.t.conn = none → Telnet.sendLoop fuel st = some (out, st') →
      out = .nilDeref ∨ out = .returned (some ForceInterruptConnectionError)
        ∨ out = .returned (some LosingConnectionWithRemoteError))
    ∧ (∀ (s : Session) (actions : List Action) (err : Option Error),
      s.up = .stopped err → (s.run actions).up = .stopped err)
    ∧ (∀ (s : Session) (actions : List Action) (err : Option Error),
      s.down = .stopped err → (s.run actions).down = .stopped err) := by
  refine ⟨?_, ?_, ?_, ?_, ?_, ?_, ?_⟩
  · intro t c r hc
    obtain ⟨⟨out, st'⟩, hres⟩ := sendLoop_returns (r.data.length + 1)
      { t := t, scanner := NewScanner r } c hc (Nat.lt_succ_self _)
    obtain ⟨e, he, hcase⟩ := sendLoop_outcome _ _ c hc out st' hres
    exact ⟨e, st', by rw [Telnet.send, hres, he], hcase⟩
  · intro t c w hc
    obtain ⟨⟨out, rt'⟩, hres⟩ := readLoop_returns (c.reader.data.length + 1)
      { t := t, scanner := NewScanner c.reader, w := w } (Nat.lt_succ_self _)
    obtain ⟨e, he, hcase⟩ := readLoop_outcome _ _ out rt' hres
    exact ⟨e, rt', by simp only [Telnet.read, hc, hres, he], hcase⟩
  · intro fuel st c out st' hc h
    exact sendLoop_outcome fuel st c hc out st' h
  · intro fuel rt out rt' h
    exact readLoop_outcome fuel rt out rt' h
  · intro fuel st out st' hc h
    exact sendLoop_outcome_unopened fuel st hc out st' h
  · intro s actions err h
    induction actions generalizing s with
    | nil => exact h
    | cons a as ih => exact ih (s.step a) (step_up_stopped s a err h)
  · intro s actions err h
    induction actions generalizing s with
    | nil => exact h
    | cons a as ih => exact ih (s.step a) (step_down_stopped s a err h)

/-- C6 at the open example session: `send` over the input "hi" and the
newline. -/
theorem relay_outcomes_witness :
    ∃ e st', (exampleTelnet []).send ⟨[104, 105, 10], none⟩ = some (.returned (some e), st')
      ∧ (e = ForceInterruptConnectionError ∨ e = LosingConnectionWithRemoteError
        ∨ e ∈ (exampleConn []).failures) :=
  relay_outcomes.1 (exampleTelnet []) (exampleConn []) ⟨[104, 105, 10], none⟩ (by decide)

/-- C7 (amended). Close: on a session that was never opened `close` does
nothing and returns no error; on a session with an open connection `close`
closes that connection and returns no error, and a second `close` calls
`Close` on the closed connection again and returns its error ("use of closed
network connection"), leaving the session as the first call left it. -/
theorem close_twice :
    (∀ t : Telnet, t.conn = none → t.close = (t, none))
    ∧ (∀ (t : Telnet) (c : Conn), t.conn = some c → c.closed = false →
      t.close = ({ t with conn := some { c with closed := true } }, none)
      ∧ t.close.1.close = (t.close.1, some ErrNetClosing)) := by
  constructor
  · intro t h
    simp [Telnet.close, h]
  · intro t c hc hcl
    have h1 : t.close = ({ t with conn := some { c with closed := true } }, none) := by
      simp [Telnet.close, hc, Conn.Close, hcl]
    refine ⟨h1, ?_⟩
    rw [h1]
    simp [Telnet.close, Conn.Close]

/-- C7 at a session that was never opened and at the open example session. -/
theorem close_twice_witness :
    (newTelnet (newTelnetAddress "tcp" "localhost" "23") 10).close
        = (newTelnet (newTelnetAddress "tcp" "localhost" "23") 10, none)
    ∧ (exampleTelnet []).close
        = ({ exampleTelnet [] with conn := some { exampleConn [] with closed := true } }, none)
    ∧ (exampleTelnet []).close.1.close = ((exampleTelnet []).close.1, some ErrNetClosing) :=
  ⟨close_twice.1 _ (by decide), close_twice.2 (exampleTelnet []) (exampleConn []) (by decide) (by decide)⟩

/-- C7 fails as stated.  On the open example session the first `close`
returns no error and the second returns an error. -/
theorem close_twice_counterexample :
    (exampleTelnet []).close.2 = none
    ∧ (exampleTelnet []).close.1.close.2 = some ErrNetClosing
    ∧ (exampleTelnet []).close.1.close.2 ≠ none := by
  decide

/-- C8 on the code.  Whatever error a relay returns first, `main` logs it with
`log.Fatal` and the process exits there: the `wg.Done()` of that goroutine does
not run, `wg.Wait()` does not return and the deferred `telnet.close()` does not
run, so the connection is not closed by the program, whatever the other relay
does. -/
theorem main_exits_before_close (c : Conn) (first : RelayId) (e : Error)
    (errSecond : Option Error) :
    main (.ok c) first (some e) errSecond
        = [.opened, .relayReturned first (some e), .fatalExit e]
    ∧ Event.closed ∉ main (.ok c) first (some e) errSecond
    ∧ Event.waitReturned ∉ main (.ok c) first (some e) errSecond
    ∧ Event.relayReturned first.other errSecond ∉ main (.ok c) first (some e) errSecond := by
  have h : main (.ok c) first (some e) errSecond
      = [.opened, .relayReturned first (some e), .fatalExit e] := rfl
  refine ⟨h, ?_, ?_, ?_⟩
  · rw [h]
    simp
  · rw [h]
    simp
  · rw [h]
    cases first <;> simp [RelayId.other]

/-- C9. The cancellation signal is one-shot and monotonic: a session built by
`newTelnet` starts with the signal unset; in every sequence of passes of
`send`, passes of `read` and calls of `ContextCancel`, a signal that is set
after some actions is set after any further ones, so the signal along a run is
unset for some steps and set from then on; and `ContextCancel` on a session
whose signal is set changes nothing. -/
theorem cancel_signal_one_shot :
    (∀ (address : TelnetAddr) (timeout : Nat), (newTelnet address timeout).Context.done = false)
    ∧ (∀ (s : Session) (as bs : List Action),
      (s.run as).t.Context.done = true → (s.run (as ++ bs)).t.Context.done = true)
    ∧ (∀ (s : Session) (actions : List Action), ∃ i j : Nat,
      s.signals actions = List.replicate i false ++ List.replicate j true)
    ∧ (∀ t : Telnet, t.Context.done = true → t.ContextCancel = t)
    ∧ (∀ t : Telnet, t.ContextCancel.ContextCancel = t.ContextCancel) := by
  refine ⟨fun _ _ => rfl, ?_, ?_, ?_, fun _ => rfl⟩
  · intro s as bs h
    rw [run_append]
    exact run_of_done bs _ h
  · intro s actions
    induction actions generalizing s with
    | nil =>
      cases hd : s.t.Context.done with
      | false => exact ⟨1, 0, by simp [Session.signals, hd]⟩
      | true => exact ⟨0, 1, by simp [Session.signals, hd]⟩
    | cons a as ih =>
      cases hd : s.t.Context.done with
      | true => exact ⟨0, as.length + 2, by simp [signals_of_done (a :: as) s hd]⟩
      | false =>
        obtain ⟨i, j, hij⟩ := ih (s.step a)
        exact ⟨i + 1, j, by simp [Session.signals, hd, hij, List.replicate_succ]⟩
  · intro t h
    cases t with
    | mk a τ ctx conn =>
      cases ctx with
      | mk d =>
        simp only at h
        subst h
        rfl

/-- C9 at the process whose standard input is empty: the first pass of `send`
sets the signal, and it is still set after a pass of `read`, a call of
`ContextCancel` and a further pass of `send`. -/
theorem cancel_signal_one_shot_witness :
    ((Session.start (newTelnet (newTelnetAddress "tcp" "localhost" "23") 10)
        (exampleConn [104, 105, 10]) ⟨[], none⟩ ⟨[], []⟩).run
      ([.sendIter] ++ [.readIter, .cancel, .sendIter])).t.Context.done = true :=
  cancel_signal_one_shot.2.1 _ [.sendIter] [.readIter, .cancel, .sendIter] (by decide)

/-- C10 (amended). A failure of the scanner is handled as the end of the
stream.  With the cancellation signal unset at the loop check, when the next
65536 bytes of the source of a relay hold no "\n", or the source has no bytes
left and reading it fails with an error, the relay writes nothing, leaves the
rest of the source unread, sets the signal and returns its end-of-stream
sentinel (`ForceInterruptConnectionError` for `send`,
`LosingConnectionWithRemoteError` for `read`), while the scanner holds an
error of its own that is not returned.  Bytes received before a read error
that form an unterminated last line shorter than 65536 bytes are first
written as a line (without one terminal "\r", followed by "\n"), as before the
end of the input, and the relay then stops in the same way. -/
theorem scanner_failure :
    (∀ (fuel : Nat) (st : SendState), st.t.Context.done = false →
      ((newline ∉ st.scanner.r.data.take st.scanner.maxTokenSize
          ∧ st.scanner.maxTokenSize ≤ st.scanner.r.data.length)
        ∨ (st.scanner.r.data = [] ∧ ∃ e, st.scanner.r.fin = some e)) →
      ∃ st', Telnet.sendLoop (fuel + 1) st
          = some (.returned (some ForceInterruptConnectionError), st')
        ∧ st'.t = st.t.ContextCancel ∧ st'.t.conn = st.t.conn ∧ st'.t.Context.done = true
        ∧ st'.scanner.r = st.scanner.r ∧ st'.scanner.err ≠ none)
    ∧ (∀ (fuel : Nat) (rt : ReadState), rt.t.Context.done = false →
      ((newline ∉ rt.scanner.r.data.take rt.scanner.maxTokenSize
          ∧ rt.scanner.maxTokenSize ≤ rt.scanner.r.data.length)
        ∨ (rt.scanner.r.data = [] ∧ ∃ e, rt.scanner.r.fin = some e)) →
      ∃ rt', Telnet.readLoop (fuel + 1) rt
          = some (.returned (some LosingConnectionWithRemoteError), rt')
        ∧ rt'.t = rt.t.ContextCancel ∧ rt'.w = rt.w ∧ rt'.t.Context.done = true
        ∧ rt'.scanner.r = rt.scanner.r ∧ rt'.scanner.err ≠ none)
    ∧ (∀ (fuel : Nat) (st : SendState) (c : Conn) (e : Error), st.t.Context.done = false →
      st.t.conn = some c → c.closed = false → c.outbound.faults = [] →
      st.scanner.maxTokenSize = MaxScanTokenSize → st.scanner.r.fin = some e →
      st.scanner.r.data ≠ [] → newline ∉ st.scanner.r.data →
      st.scanner.r.data.length < MaxScanTokenSize →
      ∃ st', Telnet.sendLoop (fuel + 2) st
          = some (.returned (some ForceInterruptConnectionError), st')
        ∧ st'.t.conn = some { c with outbound :=
            ⟨c.outbound.written ++ (dropCR st.scanner.r.data ++ DataSeparator), []⟩ }
        ∧ st'.t.Context.done = true)
    ∧ (∀ (fuel : Nat) (rt : ReadState) (e : Error), rt.t.Context.done = false →
      rt.w.faults = [] →
      rt.scanner.maxTokenSize = MaxScanTokenSize → rt.scanner.r.fin = some e →
      rt.scanner.r.data ≠ [] → newline ∉ rt.scanner.r.data →
      rt.scanner.r.data.length < MaxScanTokenSize →
      ∃ rt', Telnet.readLoop (fuel + 2) rt
          = some (.returned (some LosingConnectionWithRemoteError), rt')
        ∧ rt'.w = ⟨rt.w.written ++ (dropCR rt.scanner.r.data ++ DataSeparator), []⟩
        ∧ rt'.t.Context.done = true) := by
  refine ⟨?_, ?_, ?_, ?_⟩
  · intro fuel st hd hfail
    rcases hfail with ⟨hnl, hlen⟩ | ⟨hdata, e, he⟩
    · exact ⟨_, sendLoop_scan_fails fuel st _ hd (Scan_tooLong _ hnl hlen), rfl, rfl, rfl, rfl,
        by simp⟩
    · refine ⟨_, sendLoop_scan_fails fuel st _ hd (Scan_dry _ hdata), rfl, rfl, rfl, rfl, ?_⟩
      by_cases h0 : 0 < st.scanner.maxTokenSize <;> simp [h0, he]
  · intro fuel rt hd hfail
    rcases hfail with ⟨hnl, hlen⟩ | ⟨hdata, e, he⟩
    · exact ⟨_, readLoop_scan_fails fuel rt _ hd (Scan_tooLong _ hnl hlen), rfl, rfl, rfl, rfl,
        by simp⟩
    · refine ⟨_, readLoop_scan_fails fuel rt _ hd (Scan_dry _ hdata), rfl, rfl, rfl, rfl, ?_⟩
      by_cases h0 : 0 < rt.scanner.maxTokenSize <;> simp [h0, he]
  · intro fuel st c e hd hc hcl hf hmax _ hne hnl hlen
    obtain ⟨st', hrun, hconn, hdone, _⟩ := sendLoop_lines [] st.scanner.r.data (fuel + 2) st c
      hd hc hcl hf rfl hmax (by simp) hnl hlen (by simp [tailLines, hne])
    refine ⟨st', hrun, ?_, hdone⟩
    rw [hconn]
    simp [tailLines, hne, frames]
  · intro fuel rt e hd hf hmax _ hne hnl hlen
    obtain ⟨rt', hrun, hw, _, hdone, _⟩ := readLoop_lines [] rt.scanner.r.data (fuel + 2) rt
      hd hf rfl hmax (by simp) hnl hlen (by simp [tailLines, hne])
    refine ⟨rt', hrun, ?_, hdone⟩
    rw [hw]
    simp [tailLines, hne, frames]

/-- C10 at a standard input of 65536 bytes "a" and a "\n", and at a connection
that is reset after the peer has sent nothing. -/
theorem scanner_failure_witness :
    (∃ st', Telnet.sendLoop 1
          { t := exampleTelnet [],
            scanner := NewScanner ⟨longLine MaxScanTokenSize ++ [newline], none⟩ }
        = some (.returned (some ForceInterruptConnectionError), st')
      ∧ st'.t = (exampleTelnet []).ContextCancel ∧ st'.t.conn = (exampleTelnet []).conn
      ∧ st'.t.Context.done = true
      ∧ st'.scanner.r = ⟨longLine MaxScanTokenSize ++ [newline], none⟩
      ∧ st'.scanner.err ≠ none)
    ∧ (∃ rt', Telnet.readLoop 1
          { t := resetTelnet [], scanner := NewScanner (resetConn []).reader, w := ⟨[], []⟩ }
        = some (.returned (some LosingConnectionWithRemoteError), rt')
      ∧ rt'.t = (resetTelnet []).ContextCancel ∧ rt'.w = ⟨[], []⟩
      ∧ rt'.t.Context.done = true
      ∧ rt'.scanner.r = (resetConn []).reader ∧ rt'.scanner.err ≠ none) :=
  ⟨scanner_failure.1 0
      { t := exampleTelnet [],
        scanner := NewScanner ⟨longLine MaxScanTokenSize ++ [newline], none⟩ }
      (by decide)
      (Or.inl ⟨by
          show newline ∉ List.take MaxScanTokenSize (longLine MaxScanTokenSize ++ [newline])
          rw [take_longLine_append]
          exact newline_not_mem_longLine _,
        by
          show MaxScanTokenSize ≤ (longLine MaxScanTokenSize ++ [newline]).length
          rw [List.length_append, longLine_length]
          exact Nat.le_add_right _ _⟩),
    scanner_failure.2.1 0
      { t := resetTelnet [], scanner := NewScanner (resetConn []).reader, w := ⟨[], []⟩ }
      (by decide) (Or.inr ⟨by decide, errno 104, by decide⟩)⟩

/-- C10 fails as stated.  When reading fails after the bytes "abc" with no
"\n", `send` writes "abc\n" to the connection and `read` writes "abc\n" to the
local writer before they stop; and with the cancellation signal set, `send`
over a line of 65536 bytes "a" returns `LosingConnectionWithRemoteError`, not
its end-of-stream sentinel. -/
theorem scanner_failure_counterexample :
    (((exampleTelnet []).send ⟨[97, 98, 99], some (errno 5)⟩).map
          (fun res => (res.1, res.2.t.conn))
        = some (.returned (some ForceInterruptConnectionError),
            some { exampleConn [] with outbound := ⟨[97, 98, 99, 10], []⟩ }))
    ∧ (((resetTelnet [97, 98, 99]).read ⟨[], []⟩).map (fun res => (res.1, res.2.w))
        = some (.returned (some LosingConnectionWithRemoteError), ⟨[97, 98, 99, 10], []⟩))
    ∧ (((exampleTelnet []).ContextCancel.send ⟨longLine MaxScanTokenSize ++ [newline], none⟩).map
          (fun res => res.1)
        = some (.returned (some LosingConnectionWithRemoteError))) := by
  refine ⟨by decide, by decide, ?_⟩
  rw [Telnet.send, sendLoop_of_done _ _ (by decide)]
  rfl

end Gotelnet
